import Mathlib

/-!
Verification of the wireless-clearcom firmware core against its design
specification.  The C sources are shallowly embedded: each embedded
definition mirrors one C function (same name where possible), with
machine integers modelled as `Nat`/`Int` plus explicit `% 2^32` where the
C type is `uint32_t`, pointers-plus-length modelled as `List Nat`
(byte values), and the user-registered callbacks modelled as `Option`
return values (the value the callback would be invoked with, `none` when
the C code does not invoke it).
-/

namespace ClearCom

/-! ## PTT state machine (ptt_control.c) -/

/-- `ptt_state_t` from ptt_control.h: PTT_IDLE, PTT_LATCHED, PTT_MOMENTARY. -/
inductive PttState
  | idle
  | latched
  | momentary
  deriving DecidableEq, Repr

/-- `PTT_HOLD_THRESHOLD_MS` from config_pack.h. -/
def PTT_HOLD_THRESHOLD_MS : Nat := 200

/-- The mutable module state of ptt_control.c: `current_state` and
`button_currently_pressed` (the registered callback pointer is modelled
by returning the would-be callback arguments). -/
structure PttControl where
  current_state : PttState
  button_currently_pressed : Bool
  deriving DecidableEq, Repr

/-- `ptt_control_init`: state after initialisation. -/
def ptt_control_init : PttControl :=
  { current_state := .idle, button_currently_pressed := false }

/-- `set_state` from ptt_control.c: if the new state differs from the
current one, store it and invoke the user callback with
`(new_state, transmitting)`; otherwise do nothing.  The second component
is `some args` exactly when the C code invokes the callback. -/
def set_state (st : PttControl) (new_state : PttState) :
    PttControl × Option (PttState × Bool) :=
  if st.current_state ≠ new_state then
    let transmitting := new_state = PttState.latched ∨ new_state = PttState.momentary
    ({ st with current_state := new_state },
     some (new_state, decide transmitting))
  else
    (st, none)

/-- `ptt_control_button_event` from ptt_control.c. -/
def ptt_control_button_event (st : PttControl) (pressed : Bool)
    (hold_time_ms : Nat) : PttControl × Option (PttState × Bool) :=
  let st := { st with button_currently_pressed := pressed }
  if pressed then
    match st.current_state with
    | .idle => set_state st .latched
    | .latched =>
        if hold_time_ms ≥ PTT_HOLD_THRESHOLD_MS then
          set_state st .momentary
        else
          (st, none)
    | .momentary => (st, none)
  else
    match st.current_state with
    | .momentary => set_state st .idle
    | .latched => set_state st .idle
    | .idle => (st, none)

/-- `ptt_control_is_transmitting` from ptt_control.c. -/
def ptt_control_is_transmitting (st : PttControl) : Bool :=
  st.current_state = PttState.latched ∨ st.current_state = PttState.momentary

/-- The transition table exactly as the claim words it (spec §4.3):
Idle+press→Latched; Latched+pressed with hold≥200→Momentary;
Momentary+release→Idle; Latched+release→Idle; all else no-op. -/
def ptt_claim_next (s : PttState) (pressed : Bool) (hold_time_ms : Nat) :
    PttState :=
  match s, pressed with
  | .idle, true => .latched
  | .latched, true =>
      if hold_time_ms ≥ 200 then .momentary else .latched
  | .momentary, false => .idle
  | .latched, false => .idle
  | s, _ => s

/-- Run a list of button events, returning the list of states visited
after each event (the trace, excluding the initial state). -/
def ptt_trace (st : PttControl) : List (Bool × Nat) → List PttState
  | [] => []
  | (p, h) :: evs =>
      let st' := (ptt_control_button_event st p h).1
      st'.current_state :: ptt_trace st' evs

/-! ## Call signaling state machine (call_module.c) -/

/-- `call_state_t` from call_module.h. -/
inductive CallState
  | idle
  | outgoing
  | incoming
  | acknowledged
  deriving DecidableEq, Repr

/-- The mutable module state of call_module.c. -/
structure CallModule where
  current_state : CallState
  local_calling : Bool
  remote_calling : Bool
  deriving DecidableEq, Repr

/-- `call_module_init`: state after initialisation. -/
def call_module_init : CallModule :=
  { current_state := .idle, local_calling := false, remote_calling := false }

/-- `update_call_state` from call_module.c: recompute the state from the
two booleans; on a change, store it and invoke the callback with
`(new_state, local_calling)`. -/
def update_call_state (st : CallModule) :
    CallModule × Option (CallState × Bool) :=
  let new_state : CallState :=
    if st.local_calling ∧ st.remote_calling then .acknowledged
    else if st.local_calling ∧ ¬ st.remote_calling then .outgoing
    else if ¬ st.local_calling ∧ st.remote_calling then .incoming
    else .idle
  if st.current_state ≠ new_state then
    ({ st with current_state := new_state },
     some (new_state, st.local_calling))
  else
    (st, none)

/-- `call_module_button_event` from call_module.c. -/
def call_module_button_event (st : CallModule) (pressed : Bool) :
    CallModule × Option (CallState × Bool) :=
  update_call_state { st with local_calling := pressed }

/-- `call_module_remote_signal` from call_module.c: only acts when the
remote flag actually changed. -/
def call_module_remote_signal (st : CallModule)
    (remote_calling_new : Bool) : CallModule × Option (CallState × Bool) :=
  if st.remote_calling ≠ remote_calling_new then
    update_call_state { st with remote_calling := remote_calling_new }
  else
    (st, none)

/-- `call_module_is_calling` from call_module.c. -/
def call_module_is_calling (st : CallModule) : Bool :=
  st.current_state = CallState.outgoing ∨
    st.current_state = CallState.acknowledged

/-- `call_module_is_being_called` from call_module.c. -/
def call_module_is_being_called (st : CallModule) : Bool :=
  st.current_state = CallState.incoming ∨
    st.current_state = CallState.acknowledged

/-- The pure function of spec §3, as the claim words it:
`(false,false)→Idle, (true,false)→Outgoing, (false,true)→Incoming,
(true,true)→Acknowledged`. -/
def call_claim_pure : Bool → Bool → CallState
  | false, false => .idle
  | true, false => .outgoing
  | false, true => .incoming
  | true, true => .acknowledged

/-- An interleaving element: a local button event or a remote-flag update. -/
inductive CallEvent
  | button (pressed : Bool)
  | remote (flag : Bool)
  deriving DecidableEq, Repr

/-- Apply one event to the call module, discarding the callback value. -/
def call_step (st : CallModule) : CallEvent → CallModule
  | .button p => (call_module_button_event st p).1
  | .remote r => (call_module_remote_signal st r).1

/-- Run a list of events. -/
def call_run (st : CallModule) (evs : List CallEvent) : CallModule :=
  evs.foldl call_step st

/-! ## Theorems: state machines -/

lemma call_step_preserves_pure (st : CallModule) (e : CallEvent)
    (h : st.current_state = call_claim_pure st.local_calling st.remote_calling) :
    (call_step st e).current_state =
      call_claim_pure (call_step st e).local_calling
        (call_step st e).remote_calling := by
  obtain ⟨s, l, r⟩ := st
  cases e with
  | button p => revert h; cases p <;> cases s <;> cases l <;> cases r <;> decide
  | remote f => revert h; cases f <;> cases s <;> cases l <;> cases r <;> decide

lemma call_run_preserves_pure (evs : List CallEvent) (st : CallModule)
    (h : st.current_state = call_claim_pure st.local_calling st.remote_calling) :
    (call_run st evs).current_state =
      call_claim_pure (call_run st evs).local_calling
        (call_run st evs).remote_calling := by
  induction evs generalizing st with
  | nil => exact h
  | cons e evs ih =>
      simpa [call_run] using ih (call_step st e) (call_step_preserves_pure st e h)

/-- C3: PTT state machine.  From any state, one button event moves the
state exactly by the claimed table (Idle+press→Latched; Latched+pressed
and held ≥200 ms→Momentary; Momentary+release→Idle; Latched+release→Idle;
all other pairs are no-ops); `ptt_control_is_transmitting` holds exactly
in {Latched, Momentary}; the event sequence (press,0),(release,50) visits
Latched then Idle and never Momentary, and (press,0),(press,250),
(release,250) visits Latched, Momentary, Idle. -/
theorem ptt_state_machine_matches_claimed_table :
    (∀ (st : PttControl) (pressed : Bool) (hold_time_ms : Nat),
      (ptt_control_button_event st pressed hold_time_ms).1.current_state =
        ptt_claim_next st.current_state pressed hold_time_ms) ∧
    (∀ st : PttControl,
      ptt_control_is_transmitting st = true ↔
        st.current_state = PttState.latched ∨
          st.current_state = PttState.momentary) ∧
    ptt_trace ptt_control_init [(true, 0), (false, 50)] =
      [PttState.latched, PttState.idle] ∧
    PttState.momentary ∉ ptt_trace ptt_control_init [(true, 0), (false, 50)] ∧
    ptt_trace ptt_control_init [(true, 0), (true, 250), (false, 250)] =
      [PttState.latched, PttState.momentary, PttState.idle] := by
  refine ⟨?_, ?_, by decide, by decide, by decide⟩
  · intro st pressed hold_time_ms
    obtain ⟨s, b⟩ := st
    cases s <;> cases pressed <;>
      by_cases h : 200 ≤ hold_time_ms <;>
        simp [ptt_control_button_event, set_state, ptt_claim_next,
          PTT_HOLD_THRESHOLD_MS, h]
  · intro st
    simp [ptt_control_is_transmitting]

/-- C5: call state invariant.  After any interleaving of local button
events and remote-flag updates starting from the initial state, the call
state equals the pure function of the last-seen pair (local, remote);
the scenario press → remote on → release visits Outgoing, Acknowledged,
Incoming; and `is_calling`/`is_being_called` hold exactly in
{Outgoing, Acknowledged} / {Incoming, Acknowledged}. -/
theorem call_state_is_pure_function_of_inputs :
    (∀ evs : List CallEvent,
      (call_run call_module_init evs).current_state =
        call_claim_pure (call_run call_module_init evs).local_calling
          (call_run call_module_init evs).remote_calling) ∧
    (call_run call_module_init [.button true]).current_state =
      CallState.outgoing ∧
    (call_run call_module_init [.button true, .remote true]).current_state =
      CallState.acknowledged ∧
    (call_run call_module_init
        [.button true, .remote true, .button false]).current_state =
      CallState.incoming ∧
    (∀ st : CallModule,
      call_module_is_calling st = true ↔
        st.current_state = CallState.outgoing ∨
          st.current_state = CallState.acknowledged) ∧
    (∀ st : CallModule,
      call_module_is_being_called st = true ↔
        st.current_state = CallState.incoming ∨
          st.current_state = CallState.acknowledged) := by
  refine ⟨?_, by decide, by decide, by decide, ?_, ?_⟩
  · intro evs
    exact call_run_preserves_pure evs call_module_init (by decide)
  · intro st
    simp [call_module_is_calling]
  · intro st
    simp [call_module_is_being_called]

/-- C8: notification iff state change, for both machines.  Each of the
three input-processing functions returns a callback invocation exactly
when the resulting state differs from the previous one, and that
invocation carries the new state. -/
theorem notify_exactly_on_state_change :
    (∀ (st : PttControl) (pressed : Bool) (hold_time_ms : Nat),
      (ptt_control_button_event st pressed hold_time_ms).2 =
        (if (ptt_control_button_event st pressed hold_time_ms).1.current_state
              ≠ st.current_state
         then some
            ((ptt_control_button_event st pressed hold_time_ms).1.current_state,
             ptt_control_is_transmitting
               (ptt_control_button_event st pressed hold_time_ms).1)
         else none)) ∧
    (∀ (st : CallModule) (pressed : Bool),
      (call_module_button_event st pressed).2 =
        (if (call_module_button_event st pressed).1.current_state
              ≠ st.current_state
         then some ((call_module_button_event st pressed).1.current_state,
                    pressed)
         else none)) ∧
    (∀ (st : CallModule) (flag : Bool),
      (call_module_remote_signal st flag).2 =
        (if (call_module_remote_signal st flag).1.current_state
              ≠ st.current_state
         then some ((call_module_remote_signal st flag).1.current_state,
                    st.local_calling)
         else none)) := by
  refine ⟨?_, ?_, ?_⟩
  · intro st pressed hold_time_ms
    obtain ⟨s, b⟩ := st
    cases s <;> cases pressed <;>
      by_cases h : 200 ≤ hold_time_ms <;>
        simp [ptt_control_button_event, set_state, PTT_HOLD_THRESHOLD_MS,
          ptt_control_is_transmitting, h]
  · intro st pressed
    obtain ⟨s, l, r⟩ := st
    cases pressed <;> cases s <;> cases l <;> cases r <;> decide
  · intro st flag
    obtain ⟨s, l, r⟩ := st
    cases flag <;> cases s <;> cases l <;> cases r <;> decide

/-! ## UDP transport (udp_transport.c) -/

/-- `2^32`, the modulus of the C `uint32_t` counters and sequence numbers. -/
def U32 : Nat := 4294967296

/-- Reduction modulo `2^32`, i.e. C `uint32_t` wrap-around. -/
def u32 (n : Nat) : Nat := n % U32

/-- `udp_stats_t` from udp_transport.h.  The derived float field
`packet_loss_percent` is not modelled (floating point); every claim here
concerns the integer counters only. -/
structure udp_stats_t where
  packets_sent : Nat
  packets_received : Nat
  packets_lost : Nat
  bytes_sent : Nat
  bytes_received : Nat
  deriving DecidableEq, Repr

/-- The mutable module state of udp_transport.c used by the claims:
the statistics plus `tx_sequence` and `last_rx_sequence`. -/
structure UdpTransport where
  stats : udp_stats_t
  tx_sequence : Nat
  last_rx_sequence : Nat
  deriving DecidableEq, Repr

/-- State after `udp_transport_init` / `udp_transport_reset_stats`:
`memset(&stats, 0, ...)`, `tx_sequence = 0`, `last_rx_sequence = 0`. -/
def udp_transport_reset : UdpTransport :=
  { stats := ⟨0, 0, 0, 0, 0⟩, tx_sequence := 0, last_rx_sequence := 0 }

/-- `sizeof(audio_packet_t) - sizeof(opus_data)`: the packed header is
4 (sequence) + 4 (timestamp) + 2 (opus_size) + 1 (flags) + 1 (reserved)
= 12 bytes. -/
def AUDIO_PACKET_HEADER_SIZE : Nat := 12

/-- `sizeof(((audio_packet_t*)0)->opus_data)` = 256 bytes. -/
def UDP_MAX_OPUS_SIZE : Nat := 256

/-- Read a little-endian `uint16_t` at byte offset `i` of a buffer (the
packed `audio_packet_t` overlay on the receive buffer; the target is
little-endian). -/
def read_u16 (b : List Nat) (i : Nat) : Nat :=
  b.getD i 0 + 256 * b.getD (i + 1) 0

/-- Read a little-endian `uint32_t` at byte offset `i` of a buffer. -/
def read_u32 (b : List Nat) (i : Nat) : Nat :=
  b.getD i 0 + 256 * b.getD (i + 1) 0 + 65536 * b.getD (i + 2) 0 +
    16777216 * b.getD (i + 3) 0

/-- The arguments the rx task passes to the registered
`udp_rx_callback_t`.  `payload` is the datagram's bytes from offset 12
on (what lies behind the `packet->opus_data` pointer that is actually
from this datagram); `opus_size` is the size argument, taken from the
header field, never validated against the datagram length. -/
structure RxCallback where
  payload : List Nat
  opus_size : Nat
  ptt_active : Bool
  call_active : Bool
  deriving DecidableEq, Repr

/-- One iteration of `udp_rx_task` from udp_transport.c for a received
datagram `buf` (the `recvfrom` result of length `buf.length`): the
minimum-header-length check, statistics update, gap-based loss count,
`last_rx_sequence` update, and the callback invocation (returned as
`some args`; the C code also requires a registered callback and invokes
it only when `packet->opus_size > 0`).  The call to
`device_manager_packet_received` (sleep timeout) touches no transport
state and is not modelled. -/
def udp_rx_task_step (st : UdpTransport) (buf : List Nat) :
    UdpTransport × Option RxCallback :=
  if buf.length < AUDIO_PACKET_HEADER_SIZE then
    (st, none)
  else
    let sequence := read_u32 buf 0
    let opus_size := read_u16 buf 8
    let flags := buf.getD 10 0
    let stats1 : udp_stats_t := { st.stats with
      packets_received := u32 (st.stats.packets_received + 1)
      bytes_received := u32 (st.stats.bytes_received + buf.length) }
    let stats2 : udp_stats_t :=
      if stats1.packets_received > 1 then
        let expected_seq := u32 (st.last_rx_sequence + 1)
        if sequence > expected_seq then
          { stats1 with
            packets_lost := u32 (stats1.packets_lost + (sequence - expected_seq)) }
        else stats1
      else stats1
    let st' := { st with stats := stats2, last_rx_sequence := sequence }
    let cb :=
      if 0 < opus_size then
        some { payload := buf.drop AUDIO_PACKET_HEADER_SIZE
               opus_size := opus_size
               ptt_active := (flags % 2) ≠ 0
               call_active := (flags / 2 % 2) ≠ 0 }
      else none
    (st', cb)

/-- Feed a list of datagrams through the rx task. -/
def udp_rx_run (st : UdpTransport) (dgrams : List (List Nat)) : UdpTransport :=
  dgrams.foldl (fun s d => (udp_rx_task_step s d).1) st

/-- A minimal 12-byte datagram carrying sequence number `seq`
(little-endian), zero timestamp, zero `opus_size`, zero flags. -/
def mk_audio_datagram (seq : Nat) : List Nat :=
  [seq % 256, seq / 256 % 256, seq / 65536 % 256, seq / 16777216 % 256,
   0, 0, 0, 0, 0, 0, 0, 0]

/-- The `audio_packet_t` built by `udp_transport_send` (the serialized
datagram handed to `sendto`). -/
structure audio_packet_t where
  sequence : Nat
  timestamp : Nat
  opus_size : Nat
  flags : Nat
  payload : List Nat
  deriving DecidableEq, Repr

/-- `udp_transport_send` from udp_transport.c, for an already
successfully started transport (`initialized && sock >= 0`).  `send_ok`
models the outcome of the `sendto` primitive (network nondeterminism);
`timestamp` models `esp_timer_get_time()` truncated to `uint32_t`.
Result: the new module state, the ESP_OK/ESP_FAIL flag, and the
datagram handed to `sendto` (`none` when `sendto` was never called). -/
def udp_transport_send (st : UdpTransport) (opus_data : List Nat)
    (opus_size : Nat) (ptt_active call_active : Bool) (timestamp : Nat)
    (send_ok : Bool) : UdpTransport × Bool × Option audio_packet_t :=
  if UDP_MAX_OPUS_SIZE < opus_size then
    (st, false, none)
  else
    let packet : audio_packet_t :=
      { sequence := st.tx_sequence
        timestamp := u32 timestamp
        opus_size := opus_size
        flags := (if ptt_active then 1 else 0) + (if call_active then 2 else 0)
        payload := opus_data.take opus_size }
    let st1 := { st with tx_sequence := u32 (st.tx_sequence + 1) }
    let packet_size := AUDIO_PACKET_HEADER_SIZE + opus_size
    if send_ok then
      ({ st1 with stats := { st1.stats with
           packets_sent := u32 (st1.stats.packets_sent + 1)
           bytes_sent := u32 (st1.stats.bytes_sent + packet_size) } },
       true, some packet)
    else
      (st1, false, some packet)

/-! ## Theorems: transport -/

/-- C1: gap-counting loss estimator.  For any datagram that passes the
header check and is not the first received, if its sequence exceeds
`last_rx_sequence + 1` then `packets_lost` grows by exactly the gap
`sequence - (last_rx_sequence + 1)`, and `last_rx_sequence` becomes the
received sequence unconditionally (side conditions rule out `uint32_t`
wrap-around of the counters); from a fresh reset, the receive sequence
[0,1,2,5,6] ends with `packets_received = 5` and `packets_lost = 2`. -/
theorem rx_gap_counting_loss_estimator :
    (∀ (st : UdpTransport) (buf : List Nat),
      AUDIO_PACKET_HEADER_SIZE ≤ buf.length →
      1 ≤ st.stats.packets_received →
      st.stats.packets_received + 1 < U32 →
      st.last_rx_sequence + 1 < U32 →
      st.stats.packets_lost + (read_u32 buf 0 - (st.last_rx_sequence + 1)) < U32 →
      (st.last_rx_sequence + 1 < read_u32 buf 0 →
        (udp_rx_task_step st buf).1.stats.packets_lost =
          st.stats.packets_lost + (read_u32 buf 0 - (st.last_rx_sequence + 1))) ∧
      (udp_rx_task_step st buf).1.last_rx_sequence = read_u32 buf 0) ∧
    (udp_rx_run udp_transport_reset
        ([0, 1, 2, 5, 6].map mk_audio_datagram)).stats.packets_received = 5 ∧
    (udp_rx_run udp_transport_reset
        ([0, 1, 2, 5, 6].map mk_audio_datagram)).stats.packets_lost = 2 := by
  refine ⟨?_, by decide, by decide⟩
  intro st buf hlen h1 hrec hlast hlost
  have hnlt : ¬ buf.length < AUDIO_PACKET_HEADER_SIZE := by omega
  have hrec' : u32 (st.stats.packets_received + 1) =
      st.stats.packets_received + 1 := Nat.mod_eq_of_lt hrec
  have hlast' : u32 (st.last_rx_sequence + 1) =
      st.last_rx_sequence + 1 := Nat.mod_eq_of_lt hlast
  constructor
  · intro hgt
    simp only [udp_rx_task_step, if_neg hnlt, hrec', hlast']
    rw [if_pos (by omega : st.stats.packets_received + 1 > 1),
      if_pos hgt]
    simpa using Nat.mod_eq_of_lt hlost
  · simp only [udp_rx_task_step, if_neg hnlt]

/-- C2 counterexample: a 12-byte datagram with `opus_size = 0` passes the
minimum-header-length check (its statistics are counted), yet the
receive callback is NOT invoked — refuting the claim that the callback
fires for every accepted datagram including zero-length payloads. -/
theorem rx_callback_skipped_on_zero_opus_size :
    AUDIO_PACKET_HEADER_SIZE ≤ (List.replicate 12 0).length ∧
    (udp_rx_task_step udp_transport_reset
        (List.replicate 12 0)).1.stats.packets_received = 1 ∧
    (udp_rx_task_step udp_transport_reset (List.replicate 12 0)).2 = none := by
  decide

/-- C2 amended: for every datagram passing the minimum-header-length
check, the callback is invoked with the payload and the two flag bits
if and only if the header's `opus_size` is nonzero; a zero `opus_size`
updates statistics but skips the callback. -/
theorem rx_callback_iff_nonzero_opus_size (st : UdpTransport)
    (buf : List Nat) (hlen : AUDIO_PACKET_HEADER_SIZE ≤ buf.length) :
    (0 < read_u16 buf 8 →
      (udp_rx_task_step st buf).2 =
        some { payload := buf.drop AUDIO_PACKET_HEADER_SIZE
               opus_size := read_u16 buf 8
               ptt_active := (buf.getD 10 0) % 2 ≠ 0
               call_active := (buf.getD 10 0) / 2 % 2 ≠ 0 }) ∧
    (read_u16 buf 8 = 0 → (udp_rx_task_step st buf).2 = none) := by
  have hnlt : ¬ buf.length < AUDIO_PACKET_HEADER_SIZE := by omega
  constructor
  · intro hpos
    simp only [udp_rx_task_step, if_neg hnlt]
    rw [if_pos hpos]
  · intro hzero
    simp only [udp_rx_task_step, if_neg hnlt]
    rw [if_neg (by omega)]

/-- C2 amended, witness: a 13-byte datagram with `opus_size = 1`
invokes the callback with its one payload byte and both flags set. -/
theorem rx_callback_iff_nonzero_opus_size_at_instance :
    AUDIO_PACKET_HEADER_SIZE ≤
      ([0, 0, 0, 0, 0, 0, 0, 0, 1, 0, 3, 0, 77] : List Nat).length ∧
    (udp_rx_task_step udp_transport_reset
        [0, 0, 0, 0, 0, 0, 0, 0, 1, 0, 3, 0, 77]).2 =
      some { payload := [77], opus_size := 1,
             ptt_active := true, call_active := true } :=
  ⟨by decide,
   ((rx_callback_iff_nonzero_opus_size udp_transport_reset
      [0, 0, 0, 0, 0, 0, 0, 0, 1, 0, 3, 0, 77] (by decide)).1
      (by decide)).trans (by decide)⟩

/-- C10: the receiver validates only the 12-byte header length.  For any
datagram of at least 12 bytes whose header declares more payload bytes
than the datagram actually carries, the statistics are still counted and
the callback still receives the declared `opus_size`, which exceeds the
number of payload bytes present. -/
theorem rx_accepts_declared_size_beyond_datagram (st : UdpTransport)
    (buf : List Nat) (hlen : AUDIO_PACKET_HEADER_SIZE ≤ buf.length)
    (hover : buf.length - AUDIO_PACKET_HEADER_SIZE < read_u16 buf 8)
    (hrec : st.stats.packets_received + 1 < U32)
    (hbytes : st.stats.bytes_received + buf.length < U32) :
    (udp_rx_task_step st buf).1.stats.packets_received =
      st.stats.packets_received + 1 ∧
    (udp_rx_task_step st buf).1.stats.bytes_received =
      st.stats.bytes_received + buf.length ∧
    ∃ cb, (udp_rx_task_step st buf).2 = some cb ∧
      cb.opus_size = read_u16 buf 8 ∧
      cb.payload.length < cb.opus_size := by
  have hnlt : ¬ buf.length < AUDIO_PACKET_HEADER_SIZE := by omega
  have hpos : 0 < read_u16 buf 8 := by omega
  refine ⟨?_, ?_, ?_⟩
  · simp only [udp_rx_task_step, if_neg hnlt]
    split
    · split <;> simpa using Nat.mod_eq_of_lt hrec
    · simpa using Nat.mod_eq_of_lt hrec
  · simp only [udp_rx_task_step, if_neg hnlt]
    split
    · split <;> simpa using Nat.mod_eq_of_lt hbytes
    · simpa using Nat.mod_eq_of_lt hbytes
  · refine ⟨{ payload := buf.drop AUDIO_PACKET_HEADER_SIZE
              opus_size := read_u16 buf 8
              ptt_active := (buf.getD 10 0) % 2 ≠ 0
              call_active := (buf.getD 10 0) / 2 % 2 ≠ 0 }, ?_, rfl, ?_⟩
    · simp only [udp_rx_task_step, if_neg hnlt]
      rw [if_pos hpos]
    · have h12 : AUDIO_PACKET_HEADER_SIZE = 12 := rfl
      simp only [List.length_drop, h12] at hover ⊢
      omega

/-- C10 witness: a 12-byte datagram whose header declares 5 payload
bytes is counted and its callback receives `opus_size = 5` with an
empty actual payload. -/
theorem rx_accepts_declared_size_beyond_datagram_at_instance :
    (udp_rx_task_step udp_transport_reset
        [0, 0, 0, 0, 0, 0, 0, 0, 5, 0, 0, 0]).1.stats.packets_received =
      0 + 1 ∧
    (udp_rx_task_step udp_transport_reset
        [0, 0, 0, 0, 0, 0, 0, 0, 5, 0, 0, 0]).1.stats.bytes_received =
      0 + ([0, 0, 0, 0, 0, 0, 0, 0, 5, 0, 0, 0] : List Nat).length ∧
    ∃ cb, (udp_rx_task_step udp_transport_reset
        [0, 0, 0, 0, 0, 0, 0, 0, 5, 0, 0, 0]).2 = some cb ∧
      cb.opus_size = read_u16 [0, 0, 0, 0, 0, 0, 0, 0, 5, 0, 0, 0] 8 ∧
      cb.payload.length < cb.opus_size :=
  rx_accepts_declared_size_beyond_datagram udp_transport_reset
    [0, 0, 0, 0, 0, 0, 0, 0, 5, 0, 0, 0]
    (by decide) (by decide) (by decide) (by decide)

/-- C4: oversized-payload rejection is atomic.  A send whose payload
exceeds 256 bytes returns failure, hands nothing to `sendto`, and leaves
the whole transport state (statistics and `tx_sequence`) unchanged. -/
theorem send_rejects_oversized_payload_atomically (st : UdpTransport)
    (opus_data : List Nat) (opus_size : Nat) (ptt_active call_active : Bool)
    (timestamp : Nat) (send_ok : Bool)
    (hover : UDP_MAX_OPUS_SIZE < opus_size) :
    udp_transport_send st opus_data opus_size ptt_active call_active
        timestamp send_ok = (st, false, none) := by
  simp [udp_transport_send, hover]

/-- C4 witness: a 300-byte payload with `max_payload = 256` is rejected
with the transport state untouched. -/
theorem send_rejects_oversized_payload_atomically_at_300 :
    udp_transport_send udp_transport_reset (List.replicate 300 7) 300
        true false 0 true = (udp_transport_reset, false, none) :=
  send_rejects_oversized_payload_atomically udp_transport_reset
    (List.replicate 300 7) 300 true false 0 true (by decide)

lemma read_u32_mk_audio_datagram (a : Nat) (ha : a < U32) :
    read_u32 (mk_audio_datagram a) 0 = a := by
  rw [show U32 = 4294967296 from rfl] at ha
  simp only [mk_audio_datagram, read_u32, List.getD_cons_zero,
    List.getD_cons_succ]
  omega

lemma rx_step_reset_mk (a : Nat) (ha : a < U32) :
    udp_rx_task_step udp_transport_reset (mk_audio_datagram a) =
      ({ stats := { packets_sent := 0, packets_received := 1,
                    packets_lost := 0, bytes_sent := 0, bytes_received := 12 },
         tx_sequence := 0, last_rx_sequence := a }, none) := by
  have hseq := read_u32_mk_audio_datagram a ha
  simp [udp_rx_task_step, udp_transport_reset, mk_audio_datagram,
    read_u16, u32, U32, AUDIO_PACKET_HEADER_SIZE] at hseq ⊢
  omega

lemma rx_step_second_gap (a : Nat) (ha : a + 2 < U32) :
    ((udp_rx_task_step
        { stats := { packets_sent := 0, packets_received := 1,
                     packets_lost := 0, bytes_sent := 0, bytes_received := 12 },
          tx_sequence := 0, last_rx_sequence := a }
        (mk_audio_datagram (a + 2))).1).stats.packets_lost = 1 := by
  have hseq := read_u32_mk_audio_datagram (a + 2) ha
  rw [show U32 = 4294967296 from rfl] at ha
  simp only [udp_rx_task_step, AUDIO_PACKET_HEADER_SIZE]
  rw [if_neg (by simp [mk_audio_datagram])]
  simp only [hseq, u32, U32]
  rw [if_pos (by omega), if_pos (by omega)]
  simp
  omega

/-- Feeding a fresh receiver two datagrams whose sequence numbers are
two apart makes the gap estimator count exactly one lost packet. -/
lemma rx_two_with_gap (a : Nat) (ha : a + 2 < U32) :
    (udp_rx_run udp_transport_reset
        [mk_audio_datagram a, mk_audio_datagram (a + 2)]).stats.packets_lost =
      1 := by
  simp only [udp_rx_run, List.foldl]
  rw [rx_step_reset_mk a (by omega)]
  exact rx_step_second_gap a ha

/-- C9: a failed send of an in-size payload still consumes a sequence
number.  With `r1` a successful send, `r2` a send whose `sendto` fails
and `r3` the next successful send: `r2` reports failure with
`packets_sent`/`bytes_sent` unchanged but `tx_sequence` incremented, and
the datagram of `r3` carries a sequence number 2 greater than that of
`r1` — which a fresh peer's gap estimator counts as one lost packet. -/
theorem failed_send_consumes_sequence_number (st : UdpTransport)
    (d1 d2 d3 : List Nat) (s1 s2 s3 t1 t2 t3 : Nat)
    (p1 c1 p2 c2 p3 c3 : Bool)
    (r1 r2 r3 : UdpTransport × Bool × Option audio_packet_t)
    (hs1 : s1 ≤ UDP_MAX_OPUS_SIZE) (hs2 : s2 ≤ UDP_MAX_OPUS_SIZE)
    (hs3 : s3 ≤ UDP_MAX_OPUS_SIZE)
    (hseq : st.tx_sequence + 2 < U32)
    (hr1 : r1 = udp_transport_send st d1 s1 p1 c1 t1 true)
    (hr2 : r2 = udp_transport_send r1.1 d2 s2 p2 c2 t2 false)
    (hr3 : r3 = udp_transport_send r2.1 d3 s3 p3 c3 t3 true) :
    r2.2.1 = false ∧
    r2.1.tx_sequence = r1.1.tx_sequence + 1 ∧
    r2.1.stats.packets_sent = r1.1.stats.packets_sent ∧
    r2.1.stats.bytes_sent = r1.1.stats.bytes_sent ∧
    ∃ pk1 pk3, r1.2.2 = some pk1 ∧ r3.2.2 = some pk3 ∧
      pk3.sequence = pk1.sequence + 2 ∧
      (udp_rx_run udp_transport_reset
          [mk_audio_datagram pk1.sequence,
           mk_audio_datagram pk3.sequence]).stats.packets_lost = 1 := by
  have hn1 : ¬ UDP_MAX_OPUS_SIZE < s1 := by omega
  have hn2 : ¬ UDP_MAX_OPUS_SIZE < s2 := by omega
  have hn3 : ¬ UDP_MAX_OPUS_SIZE < s3 := by omega
  have hm1 : u32 (st.tx_sequence + 1) = st.tx_sequence + 1 :=
    Nat.mod_eq_of_lt (by omega)
  have hm2 : u32 (st.tx_sequence + 1 + 1) = st.tx_sequence + 2 :=
    Nat.mod_eq_of_lt (by omega)
  subst hr1 hr2 hr3
  simp only [udp_transport_send, if_neg hn1, if_neg hn2, if_neg hn3,
    if_true, if_false, hm1, hm2]
  refine ⟨rfl, rfl, rfl, rfl, _, _, rfl, rfl, rfl, ?_⟩
  exact rx_two_with_gap st.tx_sequence hseq

/-- C9 witness: from a fresh transport, send-ok / send-fail / send-ok
with 10-byte payloads exhibits the sequence gap of 2 and one counted
loss at the peer. -/
theorem failed_send_consumes_sequence_number_at_instance :
    (udp_transport_send ((udp_transport_send udp_transport_reset
        (List.replicate 10 1) 10 true false 0 true).1)
        (List.replicate 10 2) 10 true false 1 false).2.1 = false ∧
    (udp_transport_send ((udp_transport_send udp_transport_reset
        (List.replicate 10 1) 10 true false 0 true).1)
        (List.replicate 10 2) 10 true false 1 false).1.tx_sequence =
      (udp_transport_send udp_transport_reset
        (List.replicate 10 1) 10 true false 0 true).1.tx_sequence + 1 ∧
    (udp_transport_send ((udp_transport_send udp_transport_reset
        (List.replicate 10 1) 10 true false 0 true).1)
        (List.replicate 10 2) 10 true false 1 false).1.stats.packets_sent =
      (udp_transport_send udp_transport_reset
        (List.replicate 10 1) 10 true false 0 true).1.stats.packets_sent ∧
    (udp_transport_send ((udp_transport_send udp_transport_reset
        (List.replicate 10 1) 10 true false 0 true).1)
        (List.replicate 10 2) 10 true false 1 false).1.stats.bytes_sent =
      (udp_transport_send udp_transport_reset
        (List.replicate 10 1) 10 true false 0 true).1.stats.bytes_sent ∧
    ∃ pk1 pk3,
      (udp_transport_send udp_transport_reset
        (List.replicate 10 1) 10 true false 0 true).2.2 = some pk1 ∧
      (udp_transport_send ((udp_transport_send ((udp_transport_send
          udp_transport_reset (List.replicate 10 1) 10 true false 0 true).1)
          (List.replicate 10 2) 10 true false 1 false).1)
          (List.replicate 10 3) 10 true false 2 true).2.2 = some pk3 ∧
      pk3.sequence = pk1.sequence + 2 ∧
      (udp_rx_run udp_transport_reset
          [mk_audio_datagram pk1.sequence,
           mk_audio_datagram pk3.sequence]).stats.packets_lost = 1 :=
  failed_send_consumes_sequence_number udp_transport_reset
    (List.replicate 10 1) (List.replicate 10 2) (List.replicate 10 3)
    10 10 10 0 1 2 true false true false true false _ _ _
    (by decide) (by decide) (by decide) (by decide) rfl rfl rfl

/-! ## Audio processor (audio_processor.c) -/

/-- `ENABLE_AUDIO_LIMITER` from config_common.h (`1`). -/
def ENABLE_AUDIO_LIMITER : Bool := true

/-- The per-sample body of the loop in `audio_processor_limit`.  C
integer division truncates toward zero, i.e. `Int.tdiv`. -/
def limit_sample (threshold_value : Int) (x : Int) : Int :=
  if x > threshold_value then
    threshold_value + (x - threshold_value).tdiv 4
  else if x < -threshold_value then
    -threshold_value + (x + threshold_value).tdiv 4
  else x

/-- `audio_processor_limit` from audio_processor.c; the buffer is a list
of `int16_t` samples and the `float` threshold argument is modelled by
the exact rational it denotes.  `threshold_value = (int16_t)(32767.0f *
threshold)` is the truncation of the product; for the configured
threshold `0.95f` the `float` product is ≈ 31128.6496 and truncates to
31128, exactly as the rational `⌊32767·(95/100)⌋` used here. -/
def audio_processor_limit (buffer : List Int) (threshold : ℚ) : List Int :=
  if ENABLE_AUDIO_LIMITER = false then buffer
  else
    let t : ℚ := if threshold > 1 then 1 else if threshold < 0 then 0 else threshold
    let threshold_value : Int := Int.floor (32767 * t)
    buffer.map (limit_sample threshold_value)

/-- The claim's `peak_before`: the largest input magnitude. -/
def peak_before (buffer : List Int) : Nat :=
  buffer.foldr (fun x acc => max x.natAbs acc) 0

lemma mem_le_peak_before (buffer : List Int) (x : Int) (hx : x ∈ buffer) :
    x.natAbs ≤ peak_before buffer := by
  induction buffer with
  | nil => cases hx
  | cons a l ih =>
      rcases List.mem_cons.mp hx with rfl | h
      · exact Nat.le_max_left _ _
      · exact Nat.le_trans (ih h) (Nat.le_max_right _ _)

lemma floor_threshold_095 : Int.floor ((32767 : ℚ) * (95 / 100)) = 31128 := by
  rw [show (32767 : ℚ) * (95 / 100) = 3112865 / 100 by norm_num]
  rw [Int.floor_eq_iff]
  norm_num

lemma limit_sample_abs_le (x : Int) (hlo : -32768 ≤ x) (hhi : x ≤ 32767)
    (p : Int) (hp : |x| ≤ p) :
    400 * |limit_sample 31128 x| ≤ 9338595 + 100 * p := by
  unfold limit_sample
  split
  · rename_i hgt
    have key : 4 * ((x - 31128).tdiv 4) + (x - 31128).tmod 4 = x - 31128 :=
      Int.tdiv_add_tmod _ _
    have hm0 : 0 ≤ (x - 31128).tmod 4 := Int.tmod_nonneg _ (by omega)
    have hm4 : (x - 31128).tmod 4 < 4 := Int.tmod_lt_of_pos _ (by norm_num)
    have habs : |x| = x := abs_of_nonneg (by omega)
    rw [abs_of_nonneg (by omega : (0:Int) ≤ 31128 + (x - 31128).tdiv 4)]
    omega
  · split
    · rename_i hlt
      have hneg : x + 31128 = -(-(x + 31128)) := by ring
      have hflip : (x + 31128).tdiv 4 = -((-(x + 31128)).tdiv 4) := by
        rw [hneg, Int.neg_tdiv, Int.neg_neg]
      have key : 4 * ((-(x + 31128)).tdiv 4) + (-(x + 31128)).tmod 4 =
          -(x + 31128) := Int.tdiv_add_tmod _ _
      have hm0 : 0 ≤ (-(x + 31128)).tmod 4 := Int.tmod_nonneg _ (by omega)
      have hm4 : (-(x + 31128)).tmod 4 < 4 :=
        Int.tmod_lt_of_pos _ (by norm_num)
      have habs : |x| = -x := abs_of_nonpos (by omega)
      rw [abs_of_nonpos
        (by omega : -31128 + (x + 31128).tdiv 4 ≤ (0:Int))]
      omega
    · rcases abs_cases x with ⟨he, _⟩ | ⟨he, _⟩ <;> omega

lemma getD_map_of_lt (f : Int → Int) (l : List Int) (i : Nat)
    (h : i < l.length) : (l.map f).getD i 0 = f (l.getD i 0) := by
  rw [List.getD_eq_getElem?_getD, List.getD_eq_getElem?_getD,
    List.getElem?_map, List.getElem?_eq_getElem h]
  simp

lemma natAbs_rat_le_threshold (x : Int) :
    ((x.natAbs : ℚ) ≤ 95 / 100 * 32767) ↔ x.natAbs ≤ 31128 := by
  rw [show (95 : ℚ) / 100 * 32767 = 3112865 / 100 by norm_num]
  constructor
  · intro h
    by_contra hc
    push_neg at hc
    have h2 : (31129 : ℚ) ≤ (x.natAbs : ℚ) := by exact_mod_cast hc
    linarith
  · intro h
    have h2 : (x.natAbs : ℚ) ≤ (31128 : ℚ) := by exact_mod_cast h
    linarith

/-- C6: soft-knee limiter.  With the limiter enabled and threshold 0.95:
samples whose magnitude is at most 0.95·32767 pass unchanged; samples
whose magnitude exceeds it are replaced by the knee formula
`sign(x)·T + (x - sign(x)·T)/4` at the integer threshold value
`T = ⌊0.95·32767⌋ = 31128` in the C's truncating integer arithmetic;
consequently no output sample exceeds
`0.95·32767 + (peak_before - 0.95·32767)/4` in magnitude. -/
theorem limiter_soft_knee_bound (buffer : List Int)
    (hbuf : ∀ x ∈ buffer, -32768 ≤ x ∧ x ≤ 32767) :
    (audio_processor_limit buffer (95 / 100)).length = buffer.length ∧
    (∀ i, i < buffer.length →
      (((buffer.getD i 0).natAbs : ℚ) ≤ 95 / 100 * 32767 →
        (audio_processor_limit buffer (95 / 100)).getD i 0 =
          buffer.getD i 0) ∧
      (95 / 100 * 32767 < ((buffer.getD i 0).natAbs : ℚ) →
        (audio_processor_limit buffer (95 / 100)).getD i 0 =
          (if 0 < buffer.getD i 0 then
            31128 + (buffer.getD i 0 - 31128).tdiv 4
          else
            -31128 + (buffer.getD i 0 + 31128).tdiv 4))) ∧
    (∀ y ∈ audio_processor_limit buffer (95 / 100),
      (y.natAbs : ℚ) ≤
        95 / 100 * 32767 +
          ((peak_before buffer : ℚ) - 95 / 100 * 32767) / 4) := by
  have hunf : audio_processor_limit buffer (95 / 100) =
      buffer.map (limit_sample 31128) := by
    simp only [audio_processor_limit, ENABLE_AUDIO_LIMITER]
    rw [if_neg (by decide), if_neg (by norm_num), if_neg (by norm_num),
      floor_threshold_095]
  refine ⟨?_, ?_, ?_⟩
  · rw [hunf]
    exact List.length_map _ _
  · intro i hi
    constructor
    · intro hle
      have hx31 : (buffer.getD i 0).natAbs ≤ 31128 :=
        (natAbs_rat_le_threshold _).mp hle
      rw [hunf, getD_map_of_lt _ _ _ hi]
      simp only [limit_sample]
      rw [if_neg (by omega), if_neg (by omega)]
    · intro hgt
      have hx31 : ¬ (buffer.getD i 0).natAbs ≤ 31128 := by
        intro hc
        exact absurd ((natAbs_rat_le_threshold _).mpr hc) (not_le.mpr hgt)
      rw [hunf, getD_map_of_lt _ _ _ hi]
      simp only [limit_sample]
      by_cases hx : 0 < buffer.getD i 0
      · rw [if_pos (by omega), if_pos hx]
      · rw [if_neg (by omega), if_pos (by omega), if_neg hx]
  · intro y hy
    rw [hunf] at hy
    rcases List.mem_map.mp hy with ⟨x, hxmem, rfl⟩
    obtain ⟨hlo, hhi⟩ := hbuf x hxmem
    have hple := mem_le_peak_before buffer x hxmem
    have h400 := limit_sample_abs_le x hlo hhi (peak_before buffer : ℤ)
      (by rw [Int.abs_eq_natAbs]; exact_mod_cast hple)
    rw [Int.abs_eq_natAbs] at h400
    have hq : (400 : ℚ) * ((limit_sample 31128 x).natAbs : ℚ) ≤
        9338595 + 100 * (peak_before buffer : ℚ) := by
      exact_mod_cast h400
    rw [show (95 : ℚ) / 100 * 32767 = 3112865 / 100 by norm_num]
    linarith

/-- C6 witness: a pre-clipped full-scale sample 32767 (peak 32767,
exceeding 0.95·32767) is replaced by the knee formula. -/
theorem limiter_soft_knee_bound_at_instance :
    (audio_processor_limit [32767, -32768, 1000] (95 / 100)).getD 0 0 =
      (if 0 < ([32767, -32768, 1000] : List Int).getD 0 0 then
        31128 + (([32767, -32768, 1000] : List Int).getD 0 0 - 31128).tdiv 4
      else
        -31128 + (([32767, -32768, 1000] : List Int).getD 0 0 + 31128).tdiv 4) :=
  ((limiter_soft_knee_bound [32767, -32768, 1000] (by decide)).2.1 0
    (by decide)).2 (by norm_num [List.getD_cons_zero])

/-! ## Opus codec wrapper (audio_opus.c) -/

/-- Modelled from the spec: the repository wraps the external libopus
function `opus_decode`, whose code is not part of this repository.
Spec §4.1 fixes its contract for the loss path: with a NULL/empty
payload the decoder performs packet-loss concealment and yields a full
frame of exactly `frame_size` samples, never an error.  The
normal-decode result is not fixed by any claim and is left as the
abstract parameter `normal_result`. -/
def opus_decode (normal_result : Int) (opus_in : Option (List Nat))
    (frame_size : Int) : Int :=
  match opus_in with
  | none => frame_size
  | some _ => normal_result

/-- `audio_opus_decode` from audio_opus.c, for a non-null `pcm_out`.
`ready` models the C `initialized && decoder` guard (which returns -1);
a NULL `opus_in` pointer is `none`.  NULL-or-empty payloads are routed
to the concealment call `opus_decode(decoder, NULL, 0, ...)`; the
decoder's result is returned either way (negative = error, otherwise
the decoded sample count). -/
def audio_opus_decode (ready : Bool) (normal_result : Int)
    (opus_in : Option (List Nat)) (opus_size : Nat)
    (frame_size : Int) : Int :=
  if ¬ ready then -1
  else if opus_in = none ∨ opus_size = 0 then
    opus_decode normal_result none frame_size
  else
    opus_decode normal_result opus_in frame_size

/-- C7: loss-concealment decode.  For every requested frame length
`N ≥ 0`, decoding a missing (`none`) or empty payload on an initialised
codec returns exactly `N` samples and never a negative error code. -/
theorem decode_conceals_missing_payload (normal_result : Int)
    (opus_in : Option (List Nat)) (opus_size : Nat) (frame_size : Int)
    (hN : 0 ≤ frame_size)
    (hloss : opus_in = none ∨ opus_size = 0) :
    audio_opus_decode true normal_result opus_in opus_size frame_size =
      frame_size ∧
    0 ≤ audio_opus_decode true normal_result opus_in opus_size frame_size := by
  have h : audio_opus_decode true normal_result opus_in opus_size
      frame_size = frame_size := by
    simp [audio_opus_decode, opus_decode, hloss]
  exact ⟨h, h.symm ▸ hN⟩

/-- C7 witness: `decode(None, 320)` yields exactly 320 samples. -/
theorem decode_conceals_missing_payload_at_320 :
    audio_opus_decode true 0 none 0 320 = 320 ∧
    0 ≤ audio_opus_decode true 0 none 0 320 :=
  decode_conceals_missing_payload 0 none 0 320 (by decide) (Or.inl rfl)

/-- C1 witness: with 3 packets already received and `last_rx_sequence =
2`, a datagram carrying sequence 5 adds a gap of 2 to `packets_lost`
and sets `last_rx_sequence` to 5. -/
theorem rx_gap_counting_loss_estimator_at_instance :
    (udp_rx_task_step
        { stats := ⟨0, 3, 0, 0, 36⟩, tx_sequence := 0, last_rx_sequence := 2 }
        (mk_audio_datagram 5)).1.stats.packets_lost =
      0 + (read_u32 (mk_audio_datagram 5) 0 - (2 + 1)) ∧
    (udp_rx_task_step
        { stats := ⟨0, 3, 0, 0, 36⟩, tx_sequence := 0, last_rx_sequence := 2 }
        (mk_audio_datagram 5)).1.last_rx_sequence =
      read_u32 (mk_audio_datagram 5) 0 := by
  have h := rx_gap_counting_loss_estimator.1
    { stats := ⟨0, 3, 0, 0, 36⟩, tx_sequence := 0, last_rx_sequence := 2 }
    (mk_audio_datagram 5) (by decide) (by decide) (by decide) (by decide)
    (by decide)
  exact ⟨h.1 (by decide), h.2⟩
